import Mathlib

/-!
# Peer-manager core: shallow embedding and verification

This file embeds the peer-manager core of the `haxjump/mmm` repository
(`core/network/src/peer_manager/`) in Lean 4 and settles a list of claims
about it.

The repository snapshot contains `peer_manager/peer.rs` (the `Peer` record)
and `peer_manager/test_manager.rs` (the manager's test suite), but not the
manager event loop itself nor the `TrustMetric`, `Tags`, `Retry` and
`PeerAddrSet` modules.  Definitions translated from `peer.rs` are marked as
such; every definition whose Rust source is absent carries a doc comment
starting with `Modelled from the spec:` and is written from the
specification's words (checked against the expectations of
`test_manager.rs` where they apply).

Machine integers are modelled as `Nat`; none of the verified paths can
overflow `u32`/`u64` at the sizes involved.  Timestamps are seconds since
the epoch (`time::now()` in the source), also `Nat`.
-/

namespace PM

/-- Source constant `MAX_RETRY_COUNT` (peer_manager): retry cap, default 6. -/
def MAX_RETRY_COUNT : Nat := 6

/-- Source constant `SHORT_ALIVE_SESSION` (seconds): sessions shorter than this
are considered short-lived. -/
def SHORT_ALIVE_SESSION : Nat := 60

/-- Source constant `REPEATED_CONNECTION_TIMEOUT` (seconds). -/
def REPEATED_CONNECTION_TIMEOUT : Nat := 60

/-- Source constant `MAX_RANDOM_NEXT_RETRY` (seconds). -/
def MAX_RANDOM_NEXT_RETRY : Nat := 30

/-- Source constant `SAME_IP_LIMIT_BAN`: 5 minutes, in seconds. -/
def SAME_IP_LIMIT_BAN : Nat := 300

/-- Source constant `GOOD_TRUST_SCORE`. -/
def GOOD_TRUST_SCORE : Nat := 80

/-- Knock-out trust score threshold: peers scoring strictly below 40 on
`Worse` feedback are punished (spec section 4.3). -/
def KNOCK_OUT_SCORE : Nat := 40

/-- Minimum number of elapsed trust intervals before `Worse` feedback can
knock a peer out (spec section 4.1.1: `intervals >= 3`). -/
def WORSE_MIN_INTERVALS : Nat := 3

/-- A peer id: opaque bytes derived from a public key, modelled as `Nat`.
Equality is by bytes, exactly as in `tentacle::secio::PeerId`. -/
abbrev PeerId := Nat

/-- A secp256k1 public key, modelled as its raw bytes (`Nat`). -/
structure PublicKey where
  raw : Nat
deriving DecidableEq

/-- Derivation of the peer id from a public key.  The source hashes the key
bytes; the claims only use that the derivation is a fixed function of the
key, so the embedding uses the bytes themselves. -/
def PublicKey.peer_id (pk : PublicKey) : PeerId := pk.raw

/-- Error kind returned by `Peer::set_pubkey` (crate::error::ErrorKind). -/
inductive ErrorKind where
  | PublicKeyNotMatchId (pubkey : PublicKey) (id : PeerId)
deriving DecidableEq

/-- A multiaddress `(host, port, optional /id/<PeerId> suffix)`.  The
transport layers below the host are irrelevant to the claims. -/
structure Multiaddr where
  ip : Nat
  port : Nat
  id_suffix : Option PeerId := none
deriving DecidableEq

/-- `MultiaddrExt::push_id`: append the peer-id suffix when absent. -/
def Multiaddr.push_id (ma : Multiaddr) (pid : PeerId) : Multiaddr :=
  match ma.id_suffix with
  | some _ => ma
  | none => { ma with id_suffix := some pid }

/-- Modelled from the spec: the `PeerAddrSet` module is absent from the
snapshot.  A peer's multiaddr set keyed by address, each with a
`failure_count` (spec section 4.4). -/
structure PeerAddrSet where
  peer_id : PeerId
  addrs : List (Multiaddr × Nat) := []
deriving DecidableEq

/-- Modelled from the spec: fresh empty address set for a peer. -/
def PeerAddrSet.new (pid : PeerId) : PeerAddrSet := { peer_id := pid }

/-- Modelled from the spec: update the failure count of one stored address. -/
def PeerAddrSet.map_addr (s : PeerAddrSet) (a : Multiaddr) (f : Nat → Nat) : PeerAddrSet :=
  { s with addrs := s.addrs.map (fun e => if e.1 = a then (e.1, f e.2) else e) }

/-- Modelled from the spec: `inc_failure` bumps an address's failure count. -/
def PeerAddrSet.inc_failure (s : PeerAddrSet) (a : Multiaddr) : PeerAddrSet :=
  s.map_addr a (fun n => n + 1)

/-- Modelled from the spec: mark an address permanently non-connectable
(used on `PeerIdNotMatch`): its failure count jumps to `MAX_RETRY_COUNT`. -/
def PeerAddrSet.give_up_addr (s : PeerAddrSet) (a : Multiaddr) : PeerAddrSet :=
  s.map_addr a (fun _ => MAX_RETRY_COUNT)

/-- Modelled from the spec: reset an address's failure count (successful
outbound session / `RepeatedConnection{Outbound}`). -/
def PeerAddrSet.reset_failure (s : PeerAddrSet) (a : Multiaddr) : PeerAddrSet :=
  s.map_addr a (fun _ => 0)

/-- Modelled from the spec: drop an address from the set (inbound-observed
addresses are never stored). -/
def PeerAddrSet.remove_addr (s : PeerAddrSet) (a : Multiaddr) : PeerAddrSet :=
  { s with addrs := s.addrs.filter (fun e => decide (e.1 ≠ a)) }

/-- Modelled from the spec: lookup of an address's failure count. -/
def PeerAddrSet.failure (s : PeerAddrSet) (a : Multiaddr) : Option Nat :=
  (s.addrs.find? (fun e => decide (e.1 = a))).map (fun e => e.2)

/-- Modelled from the spec: number of connectable addresses, i.e. those with
`failure_count < MAX_RETRY_COUNT`. -/
def PeerAddrSet.connectable_len (s : PeerAddrSet) : Nat :=
  (s.addrs.filter (fun e => decide (e.2 < MAX_RETRY_COUNT))).length

/-- Modelled from the spec: additive insert; the id suffix is pushed before
storing and duplicates are merged silently. -/
def PeerAddrSet.insert (s : PeerAddrSet) (mas : List Multiaddr) : PeerAddrSet :=
  mas.foldl
    (fun acc ma0 =>
      let ma := ma0.push_id acc.peer_id
      if (acc.addrs.find? (fun e => decide (e.1 = ma))).isSome then acc
      else { acc with addrs := acc.addrs ++ [(ma, 0)] })
    s

/-- Modelled from the spec: `set` replaces the whole set. -/
def PeerAddrSet.set (s : PeerAddrSet) (mas : List Multiaddr) : PeerAddrSet :=
  { s with addrs := mas.map (fun ma => (ma.push_id s.peer_id, 0)) }

/-- Trust metric configuration (interval length in seconds, history bound);
defaults match `TrustMetricConfig::default()` as used by the tests. -/
structure TrustMetricConfig where
  interval : Nat := 60
  max_history : Nat := 200
deriving DecidableEq

/-- Modelled from the spec: the `TrustMetric` module is absent from the
snapshot.  Rolling reputation state: current good/bad counters, bounded
history of `(good, bad)` pairs (newest first) and a started flag
(spec section 4.3). -/
structure TrustMetric where
  config : TrustMetricConfig := {}
  good : Nat := 0
  bad : Nat := 0
  history : List (Nat × Nat) := []
  started : Bool := false
deriving DecidableEq

/-- Modelled from the spec: fresh metric for a configuration. -/
def TrustMetric.new (cfg : TrustMetricConfig) : TrustMetric := { config := cfg }

/-- Modelled from the spec: record `n` good events. -/
def TrustMetric.good_events (tm : TrustMetric) (n : Nat) : TrustMetric :=
  { tm with good := tm.good + n }

/-- Modelled from the spec: record `n` bad events. -/
def TrustMetric.bad_events (tm : TrustMetric) (n : Nat) : TrustMetric :=
  { tm with bad := tm.bad + n }

/-- Modelled from the spec: interval boundary: push `(good, bad)` onto the
history, trim to `max_history`, reset the counters. -/
def TrustMetric.enter_new_interval (tm : TrustMetric) : TrustMetric :=
  { tm with
    history := (((tm.good, tm.bad)) :: tm.history).take tm.config.max_history
    good := 0
    bad := 0 }

/-- Modelled from the spec: number of elapsed intervals. -/
def TrustMetric.intervals (tm : TrustMetric) : Nat := tm.history.length

/-- Modelled from the spec: `start()` resumes accumulation. -/
def TrustMetric.start (tm : TrustMetric) : TrustMetric := { tm with started := true }

/-- Modelled from the spec: `pause()` stops the metric while offline. -/
def TrustMetric.pause (tm : TrustMetric) : TrustMetric := { tm with started := false }

/-- Modelled from the spec: `is_started()`. -/
def TrustMetric.is_started (tm : TrustMetric) : Bool := tm.started

/-- Modelled from the spec: `reset_history()` clears history and counters
but preserves the configuration (spec section 4.3). -/
def TrustMetric.reset_history (tm : TrustMetric) : TrustMetric :=
  { tm with history := [], good := 0, bad := 0 }

/-- Modelled from the spec: per-interval goodness percentage
`100 * good / max 1 (good + bad)` (spec section 4.3). -/
def intervalRate (g b : Nat) : Nat := 100 * g / max 1 (g + b)

/-- Modelled from the spec: the score in `[0, 100]` is an exponentially
weighted (decay 0.8 toward the present, in integer percent arithmetic)
aggregate of the per-interval rates, starting from 100 for an empty
history.  The spec leaves the tuning constants open; this choice
reproduces every numeric expectation of `test_manager.rs` and
`peer.rs`'s own test (scores above 90 after good intervals, below 40
after bad ones, near 50 for mixed ones). -/
def TrustMetric.trust_score (tm : TrustMetric) : Nat :=
  tm.history.foldr (fun gb s => (s * 20 + intervalRate gb.1 gb.2 * 80) / 100) 100

/-- Modelled from the spec: the `Retry` module is absent from the snapshot.
`count` with cap `MAX_RETRY_COUNT` (spec section 4.5). -/
structure Retry where
  count : Nat := 0
  max_count : Nat := MAX_RETRY_COUNT
deriving DecidableEq

/-- Modelled from the spec: `Retry::new(max)` starts at zero. -/
def Retry.new (max_count : Nat) : Retry := { count := 0, max_count := max_count }

/-- Modelled from the spec: `eta() ~ base * 2^count + rand(0, MAX_RANDOM_NEXT_RETRY)`
with base one second; the random addend is passed explicitly. -/
def Retry.eta (r : Retry) (rand : Nat) : Nat := 2 ^ r.count + rand

/-- Modelled from the spec: `reset()` zeroes the count. -/
def Retry.reset (r : Retry) : Retry := { r with count := 0 }

/-- Modelled from the spec: `inc()`. -/
def Retry.inc (r : Retry) : Retry := { r with count := r.count + 1 }

/-- Modelled from the spec: `set(n)`. -/
def Retry.set (r : Retry) (n : Nat) : Retry := { r with count := n }

/-- Modelled from the spec: the `Tags` module is absent from the snapshot.
Set of `{AlwaysAllow, Consensus, Ban{until}}` (spec section 4.6); at most
one tag of each kind, so three fields. -/
structure Tags where
  always_allow : Bool := false
  consensus : Bool := false
  ban_until : Option Nat := none
deriving DecidableEq

/-- Modelled from the spec: `insert_ban(dur)` replaces any existing ban with
`until = now + dur`; an `AlwaysAllow` tag suppresses ban insertion
(spec section 8: the tag suppresses ban insertion). -/
def Tags.insert_ban (t : Tags) (now dur : Nat) : Tags :=
  if t.always_allow then t else { t with ban_until := some (now + dur) }

/-- Modelled from the spec: `get_banned_until()`. -/
def Tags.get_banned_until (t : Tags) : Option Nat := t.ban_until

/-- Modelled from the spec: removal of the ban tag (`remove(&ban_key())`). -/
def Tags.remove_ban (t : Tags) : Tags := { t with ban_until := none }

/-- Modelled from the spec: test-only setter `set_ban_until`. -/
def Tags.set_ban_until (t : Tags) (u : Nat) : Tags := { t with ban_until := some u }

/-- `Connectedness` from `peer.rs` (five states). -/
inductive Connectedness where
  | NotConnected
  | CanConnect
  | Connected
  | Unconnectable
  | Connecting
deriving DecidableEq

/-- `usize::from(Connectedness)` from `peer.rs`. -/
def Connectedness.toUsize : Connectedness → Nat
  | .NotConnected => 0
  | .CanConnect => 1
  | .Connected => 2
  | .Unconnectable => 3
  | .Connecting => 4

/-- `Connectedness::from(usize)` from `peer.rs` (unknown values map to
`NotConnected`). -/
def Connectedness.ofUsize : Nat → Connectedness
  | 0 => .NotConnected
  | 1 => .CanConnect
  | 2 => .Connected
  | 3 => .Unconnectable
  | 4 => .Connecting
  | _ => .NotConnected

/-- The `Peer` record from `peer.rs`.  Atomics and locks become plain
fields: every verified path is inside the manager's single-threaded event
loop, whose writes the source orders with `SeqCst`. -/
structure Peer where
  id : PeerId
  multiaddrs : PeerAddrSet
  retry : Retry := Retry.new MAX_RETRY_COUNT
  tags : Tags := {}
  pubkey : Option PublicKey := none
  trust_metric : Option TrustMetric := none
  connectedness : Connectedness := .NotConnected
  session_id : Nat := 0
  connected_at : Nat := 0
  disconnected_at : Nat := 0
  alive : Nat := 0
deriving DecidableEq

/-- `Peer::new` from `peer.rs`. -/
def Peer.new (pid : PeerId) : Peer :=
  { id := pid, multiaddrs := PeerAddrSet.new pid }

/-- `Peer::set_pubkey` from `peer.rs`: refuse a key whose derived id differs
from the peer's id, otherwise store it. -/
def Peer.set_pubkey (p : Peer) (pk : PublicKey) : Except ErrorKind Peer :=
  if pk.peer_id ≠ p.id then
    Except.error (ErrorKind.PublicKeyNotMatchId pk p.id)
  else
    Except.ok { p with pubkey := some pk }

/-- `Peer::from_pubkey` from `peer.rs`. -/
def Peer.from_pubkey (pk : PublicKey) : Except ErrorKind Peer :=
  (Peer.new pk.peer_id).set_pubkey pk

/-- `Peer::owned_pubkey` from `peer.rs`. -/
def Peer.owned_pubkey (p : Peer) : Option PublicKey := p.pubkey

/-- `Peer::has_pubkey` from `peer.rs`. -/
def Peer.has_pubkey (p : Peer) : Bool := p.pubkey.isSome

/-- `Peer::update_alive` from `peer.rs`: `alive = now - connected_at`
(saturating, as `time::duration_since`). -/
def Peer.update_alive (p : Peer) (now : Nat) : Peer :=
  { p with alive := now - p.connected_at }

/-- `Peer::mark_connected` from `peer.rs`: `Connected`, new session id,
retry reset, `connected_at = now`. -/
def Peer.mark_connected (p : Peer) (now sid : Nat) : Peer :=
  { p with
    connectedness := .Connected
    session_id := sid
    retry := p.retry.reset
    connected_at := now }

/-- `Peer::mark_disconnected` from `peer.rs`: `CanConnect`, session id 0,
`disconnected_at = now`, then `update_alive`. -/
def Peer.mark_disconnected (p : Peer) (now : Nat) : Peer :=
  ({ p with
    connectedness := .CanConnect
    session_id := 0
    disconnected_at := now }).update_alive now

/-- `Peer::banned` from `peer.rs`: true while `now < until`; an expired ban
is removed on the fly and the trust-metric history is reset.  Returns the
flag together with the (possibly) updated peer. -/
def Peer.banned (p : Peer) (now : Nat) : Bool × Peer :=
  match p.tags.get_banned_until with
  | some u =>
    if now < u then (true, p)
    else
      (false,
        { p with
          tags := p.tags.remove_ban
          trust_metric := p.trust_metric.map TrustMetric.reset_history })
  | none => (false, p)

/-- A live session record (registry side): session id, owning peer id, the
remote host of `connected_addr`, and the direction. -/
structure Session where
  sid : Nat
  pid : PeerId
  ip : Nat
  outbound : Bool
  blocked : Bool := false
deriving DecidableEq

/-- Modelled from the spec: outstanding outbound dial bookkeeping
(`ConnectingAttempt { peer_id, multiaddrs_left, started_at }`); the wall
clock field is irrelevant to the claims settled here. -/
structure ConnectingAttempt where
  pid : PeerId
  addrs_left : Nat
deriving DecidableEq

/-- The manager configuration fields used by the claims
(`PeerManagerConfig`); durations are in seconds. -/
structure Config where
  max_connections : Nat := 20
  same_ip_conn_limit : Nat := 20
  inbound_conn_limit : Nat := 10
  peer_fatal_ban : Nat := 50
  peer_soft_ban : Nat := 10
  peer_trust_config : TrustMetricConfig := {}
deriving DecidableEq

/-- Outbound command to the transport (`ConnectionEvent`); the claims only
inspect `Disconnect`. -/
inductive ConnectionEvent where
  | Disconnect (sid : Nat)
deriving DecidableEq

/-- Session context delivered with `NewSession` (`SessionContext`): new
session id, remote address, direction. -/
structure SessCtx where
  sid : Nat
  addr : Multiaddr
  outbound : Bool
deriving DecidableEq

/-- Error kinds carried by `ConnectFailed` (`ConnectionErrorKind`);
constructor names are adapted to Lean conventions. -/
inductive ConnectionErrorKind where
  | IoError
  | DnsResolver
  | PeerIdNotMatch
  | SecioHandshake
  | ProtocolHandle
deriving DecidableEq

/-- Trust feedback carried by the `TrustMetric` event (`TrustFeedback`). -/
inductive TrustFeedback where
  | Good
  | Neutral
  | Bad (reason : String)
  | Worse (reason : String)
  | Fatal (reason : String)
deriving DecidableEq

/-- Modelled from the spec: the manager state: configuration, clock, peer
registry (ordered, ids unique in reachable states), live sessions and
outstanding connecting attempts.  The manager event loop module is absent
from the snapshot. -/
structure Manager where
  config : Config := {}
  now : Nat := 0
  peers : List Peer := []
  sessions : List Session := []
  connecting : List ConnectingAttempt := []
deriving DecidableEq

/-- Registry lookup `Inner::peer(id)`. -/
def Manager.peer? (m : Manager) (pid : PeerId) : Option Peer :=
  m.peers.find? (fun q => decide (q.id = pid))

/-- Replace the first registry entry with the given id. -/
def updateFirst (pid : PeerId) (f : Peer → Peer) : List Peer → List Peer
  | [] => []
  | q :: qs => if q.id = pid then f q :: qs else q :: updateFirst pid f qs

/-- Apply `f` to the registry entry for `pid` (the registry holds at most
one entry per id). -/
def Manager.update_peer (m : Manager) (pid : PeerId) (f : Peer → Peer) : Manager :=
  { m with peers := updateFirst pid f m.peers }

/-- `Inner::connected()`: number of live sessions. -/
def Manager.connected (m : Manager) : Nat := m.sessions.length

/-- Number of live inbound sessions (`Inner::inbound_count`). -/
def Manager.inbound_count (m : Manager) : Nat :=
  (m.sessions.filter (fun s => decide (s.outbound = false))).length

/-- Modelled from the spec: the peer's same-IP counter, based on the
remote host of each live session. -/
def Manager.same_ip_count (m : Manager) (ip : Nat) : Nat :=
  (m.sessions.filter (fun s => decide (s.ip = ip))).length

/-- `Inner::remove_session(sid)`. -/
def Manager.remove_session (m : Manager) (sid : Nat) : Manager :=
  { m with sessions := m.sessions.filter (fun s => decide (s.sid ≠ sid)) }

/-- The live session owned by `pid`, if any. -/
def Manager.session_for (m : Manager) (pid : PeerId) : Option Session :=
  m.sessions.find? (fun s => decide (s.pid = pid))

/-- Drop the connecting attempt for `pid`, if any. -/
def Manager.remove_attempt (m : Manager) (pid : PeerId) : Manager :=
  { m with connecting := m.connecting.filter (fun a => decide (a.pid ≠ pid)) }

/-- The connecting attempt for `pid`, if any. -/
def Manager.attempt? (m : Manager) (pid : PeerId) : Option ConnectingAttempt :=
  m.connecting.find? (fun a => decide (a.pid = pid))

/-- Modelled from the spec: replacement eligibility (spec section 4.1.1.a):
a victim is a `Connected` peer that is not `AlwaysAllow`, has
`alive >= 20 * trust_interval + 20`, and has a trust score strictly lower
than the incoming peer's score. -/
def eligible_victim (cfg : Config) (incoming_score : Nat) (p : Peer) : Bool :=
  decide (p.connectedness = Connectedness.Connected) &&
  !p.tags.always_allow &&
  decide (20 * cfg.peer_trust_config.interval + 20 ≤ p.alive) &&
  (match p.trust_metric with
   | some tm => decide (tm.trust_score < incoming_score)
   | none => false)

/-- Modelled from the spec: pick an existing peer eligible for replacement. -/
def Manager.find_victim (m : Manager) (incoming_score : Nat) : Option Peer :=
  m.peers.find? (eligible_victim m.config incoming_score)

/-- Modelled from the spec: the peer-state part of admission (spec
section 4.1.1 steps 5, 7, 8): mark connected, store a matching pubkey,
create/start the trust metric, reset the used outbound address's failure
count or drop the observed inbound address. -/
def accept_peer (now : Nat) (cfg : TrustMetricConfig) (pk : PublicKey) (ctx : SessCtx)
    (p0 : Peer) : Peer :=
  let p1 := p0.mark_connected now ctx.sid
  let p2 := if pk.peer_id = p1.id ∧ p1.pubkey.isNone then { p1 with pubkey := some pk } else p1
  let p3 := { p2 with trust_metric := some ((p2.trust_metric.getD (TrustMetric.new cfg)).start) }
  if ctx.outbound then
    { p3 with multiaddrs := p3.multiaddrs.reset_failure (ctx.addr.push_id p3.id) }
  else
    { p3 with multiaddrs := p3.multiaddrs.remove_addr (ctx.addr.push_id p3.id) }

/-- Modelled from the spec: admit the new session (spec section 4.1.1
steps 5-8): create the session record, update the peer, drop any matching
connecting attempt. -/
def Manager.accept (m : Manager) (pid : PeerId) (pk : PublicKey) (ctx : SessCtx) : Manager :=
  let s : Session := { sid := ctx.sid, pid := pid, ip := ctx.addr.ip, outbound := ctx.outbound }
  let m1 := { m with sessions := m.sessions ++ [s] }
  (m1.update_peer pid (accept_peer m.now m.config.peer_trust_config pk ctx)).remove_attempt pid

/-- Modelled from the spec: reject a new session: drop any matching
connecting attempt (spec section 4.1.1 step 6) and command a disconnect. -/
def Manager.reject (m : Manager) (pid : PeerId) (sid : Nat) : Manager × List ConnectionEvent :=
  (m.remove_attempt pid, [ConnectionEvent.Disconnect sid])

/-- Modelled from the spec: the same-IP ban applied on step 2 of NewSession. -/
def same_ip_ban_peer (now : Nat) (p : Peer) : Peer :=
  { p with tags := p.tags.insert_ban now SAME_IP_LIMIT_BAN }

/-- Modelled from the spec: NewSession policy after the ban check (spec
section 4.1.1, decision order 2-8): same-IP limit with short ban; inbound
budget; at `max_connections` an outbound newcomer with a positive trust
score may replace an eligible victim, otherwise it is disconnected;
session uniqueness; admission. -/
def Manager.new_session_core (m : Manager) (p : Peer) (pid : PeerId) (pk : PublicKey)
    (ctx : SessCtx) : Manager × List ConnectionEvent :=
  if m.config.same_ip_conn_limit ≤ m.same_ip_count ctx.addr.ip ∧ p.tags.always_allow = false then
    ((m.update_peer pid (same_ip_ban_peer m.now)).remove_attempt pid,
      [ConnectionEvent.Disconnect ctx.sid])
  else if ctx.outbound = false ∧ m.config.inbound_conn_limit ≤ m.inbound_count ∧
      p.tags.always_allow = false then
    m.reject pid ctx.sid
  else if m.config.max_connections ≤ m.connected then
    if ctx.outbound = true then
      match p.trust_metric with
      | some tm =>
        if 0 < tm.trust_score then
          match m.find_victim tm.trust_score with
          | some v =>
            let m2 := (m.remove_session v.session_id).update_peer v.id
              (fun q => q.mark_disconnected m.now)
            (m2.accept pid pk ctx, [ConnectionEvent.Disconnect v.session_id])
          | none => m.reject pid ctx.sid
        else m.reject pid ctx.sid
      | none => m.reject pid ctx.sid
    else m.reject pid ctx.sid
  else
    match m.session_for pid with
    | some _ => (m, [ConnectionEvent.Disconnect ctx.sid])
    | none => (m.accept pid pk ctx, [])

/-- Modelled from the spec: NewSession for a registered peer: run the ban
check first (step 1; `Peer::banned` may remove an expired ban on the
fly), then the rest of the decision order. -/
def Manager.new_session_known (m : Manager) (p0 : Peer) (pid : PeerId) (pk : PublicKey)
    (ctx : SessCtx) : Manager × List ConnectionEvent :=
  let bp := p0.banned m.now
  let m1 := m.update_peer pid (fun _ => bp.2)
  if bp.1 = true ∧ bp.2.tags.always_allow = false then
    (m1, [ConnectionEvent.Disconnect ctx.sid])
  else
    m1.new_session_core bp.2 pid pk ctx

/-- Modelled from the spec: the NewSession event handler.  An unknown peer
is first inserted into the registry. -/
def Manager.new_session (m : Manager) (pid : PeerId) (pk : PublicKey) (ctx : SessCtx) :
    Manager × List ConnectionEvent :=
  match m.peer? pid with
  | some p => m.new_session_known p pid pk ctx
  | none =>
    let m1 : Manager := { m with peers := m.peers ++ [Peer.new pid] }
    m1.new_session_known (Peer.new pid) pid pk ctx

/-- Modelled from the spec: the per-address part of ConnectFailed (spec
section 4.1.1): transient errors bump the address's failure count,
`PeerIdNotMatch` retires the address, handshake/protocol errors give up
the peer itself. -/
def cf_mark_peer (addr : Multiaddr) (kind : ConnectionErrorKind) (p : Peer) : Peer :=
  match kind with
  | .IoError => { p with multiaddrs := p.multiaddrs.inc_failure addr }
  | .DnsResolver => { p with multiaddrs := p.multiaddrs.inc_failure addr }
  | .PeerIdNotMatch => { p with multiaddrs := p.multiaddrs.give_up_addr addr }
  | .SecioHandshake => { p with connectedness := Connectedness.Unconnectable }
  | .ProtocolHandle => { p with connectedness := Connectedness.Unconnectable }

/-- Modelled from the spec: when a connecting attempt exhausts without the
peer having been given up, the retry count is incremented; past
`MAX_RETRY_COUNT` the peer becomes `Unconnectable`, otherwise it can be
dialed again later. -/
def cf_exhaust_peer (p : Peer) : Peer :=
  let r := p.retry.inc
  if MAX_RETRY_COUNT < r.count then
    { p with retry := r, connectedness := Connectedness.Unconnectable }
  else
    { p with retry := r, connectedness := Connectedness.CanConnect }

/-- Modelled from the spec: the ConnectFailed event handler.  The peer is
found through the address's id suffix (events without one are dropped);
the matching connecting attempt loses one pending address and is removed
once the peer is given up or no connectable address is left, in which
case the retry count is bumped unless we had already given up. -/
def Manager.connect_failed (m : Manager) (addr : Multiaddr) (kind : ConnectionErrorKind) :
    Manager :=
  match addr.id_suffix with
  | none => m
  | some pid =>
    match m.peer? pid with
    | none => m
    | some _ =>
      let m1 := m.update_peer pid (cf_mark_peer addr kind)
      match m1.attempt? pid with
      | none => m1
      | some a =>
        let p := (m1.peer? pid).getD (Peer.new pid)
        let left := a.addrs_left - 1
        if p.connectedness = Connectedness.Unconnectable then
          m1.remove_attempt pid
        else if left = 0 ∨ p.multiaddrs.connectable_len = 0 then
          (m1.remove_attempt pid).update_peer pid cf_exhaust_peer
        else
          { m1 with
            connecting := m1.connecting.map
              (fun b => if b.pid = pid then { b with addrs_left := left } else b) }

/-- Modelled from the spec: fuel-bounded loop raising a retry count until
`eta` covers `REPEATED_CONNECTION_TIMEOUT` (spec section 4.1.1
SessionClosed: increment `retry.count` with exponential backoff so that
`retry.eta >= REPEATED_CONNECTION_TIMEOUT`). -/
def coverLoop : Nat → Nat → Nat
  | 0, c => c
  | fuel + 1, c =>
    if REPEATED_CONNECTION_TIMEOUT ≤ 2 ^ c then c else coverLoop fuel (c + 1)

/-- Modelled from the spec: the smallest count at least the current one
whose backoff covers `REPEATED_CONNECTION_TIMEOUT`; `MAX_RETRY_COUNT + 1`
steps always suffice. -/
def coverCount (c : Nat) : Nat := coverLoop (MAX_RETRY_COUNT + 1) c

/-- Modelled from the spec: the peer-state part of SessionClosed: mark
disconnected (`peer.rs`), pause the trust metric (creating one, with no
bad event, if absent), then either raise the retry count for a
short-lived session or apply a brief random ban so the peer is not
redialed immediately. -/
def sc_peer (now rand : Nat) (cfg : TrustMetricConfig) (p0 : Peer) : Peer :=
  let p1 := p0.mark_disconnected now
  let p2 := { p1 with
    trust_metric := some ((p1.trust_metric.getD (TrustMetric.new cfg)).pause) }
  if p2.alive < SHORT_ALIVE_SESSION then
    { p2 with retry := { p2.retry with count := coverCount p2.retry.count } }
  else
    { p2 with tags := p2.tags.insert_ban now (min rand MAX_RANDOM_NEXT_RETRY) }

/-- Modelled from the spec: the SessionClosed event handler: drop the
session record if still present and update the peer; `rand` stands for
the random short back-off drawn by the source. -/
def Manager.session_closed (m : Manager) (pid : PeerId) (sid rand : Nat) : Manager :=
  (m.remove_session sid).update_peer pid (sc_peer m.now rand m.config.peer_trust_config)

/-- Modelled from the spec: update a peer's trust metric (created from the
config when absent) with `f`. -/
def fb_update_peer (cfg : TrustMetricConfig) (f : TrustMetric → TrustMetric) (p : Peer) : Peer :=
  { p with trust_metric := some (f (p.trust_metric.getD (TrustMetric.new cfg))) }

/-- Modelled from the spec: punishment applied on `Fatal` feedback and on a
knocked-out `Worse` feedback: ban the peer, pause its metric, and if it
is connected command a disconnect for its session. -/
def punish_peer (now dur : Nat) (p : Peer) : Peer :=
  let q1 := { p with tags := p.tags.insert_ban now dur }
  let q2 := { q1 with trust_metric := q1.trust_metric.map TrustMetric.pause }
  if q2.connectedness = Connectedness.Connected then q2.mark_disconnected now else q2

/-- Modelled from the spec: manager side of the punishment: update the peer
and, when it was connected, remove its session and emit `Disconnect`. -/
def Manager.punish (m : Manager) (pid : PeerId) (p : Peer) (dur : Nat) :
    Manager × List ConnectionEvent :=
  let m1 := m.update_peer pid (punish_peer m.now dur)
  if p.connectedness = Connectedness.Connected then
    (m1.remove_session p.session_id, [ConnectionEvent.Disconnect p.session_id])
  else (m1, [])

/-- Modelled from the spec: the TrustMetric (trust feedback) event handler
(spec section 4.1.1): `Good` is one good event, `Neutral` a no-op, `Bad`
one bad event, `Worse` ten bad events plus a knock-out check
(`intervals >= 3`, score < 40, not `AlwaysAllow` => soft ban), `Fatal` an
immediate ban unless the peer is `AlwaysAllow`. -/
def Manager.trust_feedback (m : Manager) (pid : PeerId) (fb : TrustFeedback) :
    Manager × List ConnectionEvent :=
  match m.peer? pid with
  | none => (m, [])
  | some p =>
    let cfg := m.config.peer_trust_config
    match fb with
    | TrustFeedback.Good =>
      (m.update_peer pid (fb_update_peer cfg (fun tm => tm.good_events 1)), [])
    | TrustFeedback.Neutral => (m, [])
    | TrustFeedback.Bad _ =>
      (m.update_peer pid (fb_update_peer cfg (fun tm => tm.bad_events 1)), [])
    | TrustFeedback.Worse _ =>
      let tm := (p.trust_metric.getD (TrustMetric.new cfg)).bad_events 10
      let m1 := m.update_peer pid (fb_update_peer cfg (fun t => t.bad_events 10))
      if WORSE_MIN_INTERVALS ≤ tm.intervals ∧ tm.trust_score < KNOCK_OUT_SCORE ∧
          p.tags.always_allow = false then
        m1.punish pid p m.config.peer_soft_ban
      else (m1, [])
    | TrustFeedback.Fatal _ =>
      if p.tags.always_allow = false then m.punish pid p m.config.peer_fatal_ban
      else (m, [])

/-- Modelled from the spec: a sequence of trust-feedback events on one
peer, with the emitted commands concatenated in order. -/
def Manager.run_feedbacks (m : Manager) (pid : PeerId) :
    List TrustFeedback → Manager × List ConnectionEvent
  | [] => (m, [])
  | fb :: rest =>
    let r := m.trust_feedback pid fb
    let r2 := r.1.run_feedbacks pid rest
    (r2.1, r.2 ++ r2.2)

/-- Iterated `ConnectFailed{addr, Io}` events, used by the concrete
retry-exhaustion scenario. -/
def iterate_cf (m : Manager) (addr : Multiaddr) : Nat → Manager
  | 0 => m
  | n + 1 => (iterate_cf m addr n).connect_failed addr ConnectionErrorKind.IoError

/-! Concrete fixtures used by witnesses and counterexamples. -/

/-- A trust metric with three all-bad intervals; its score is 0. -/
def lowTM : TrustMetric :=
  { config := {}, history := [(0, 1), (0, 1), (0, 1)], started := true }

/-- A trust metric with three all-good intervals; its score is 100. -/
def highTM : TrustMetric :=
  { config := {}, history := [(1, 0), (1, 0), (1, 0)], started := true }

/-- A connected, old-enough, low-score peer: the replacement victim. -/
def victimPeer : Peer :=
  { Peer.new 1 with
    connectedness := Connectedness.Connected
    session_id := 1
    alive := 20 * 60 + 20
    trust_metric := some lowTM }

/-- A known but unconnected peer with a high trust score: the newcomer. -/
def newcomerPeer : Peer :=
  { Peer.new 2 with trust_metric := some highTM }

/-- Manager at `max_connections = 1` holding the victim's session. -/
def replM : Manager :=
  { config := { max_connections := 1, same_ip_conn_limit := 9, inbound_conn_limit := 1 }
    now := 5000
    peers := [victimPeer, newcomerPeer]
    sessions := [{ sid := 1, pid := 1, ip := 9, outbound := true }] }

/-- Session context for the newcomer's outbound session. -/
def replCtx : SessCtx :=
  { sid := 99, addr := { ip := 3, port := 2077, id_suffix := some 2 }, outbound := true }

/-- Same manager but with a newcomer that has no trust metric. -/
def replNoScoreM : Manager :=
  { replM with peers := [victimPeer, { Peer.new 2 with trust_metric := none }] }

/-- A connected peer with a fresh started metric, for the feedback claims. -/
def connPeer : Peer :=
  { Peer.new 3 with
    connectedness := Connectedness.Connected
    session_id := 4
    trust_metric := some { TrustMetric.new {} with started := true } }

/-- Manager holding `connPeer`'s session. -/
def connM : Manager :=
  { now := 700
    peers := [connPeer]
    sessions := [{ sid := 4, pid := 3, ip := 8, outbound := true }] }

/-- `connPeer` with the `AlwaysAllow` tag. -/
def aaPeer : Peer := { connPeer with tags := { always_allow := true } }

/-- Manager holding `aaPeer`'s session. -/
def aaM : Manager := { connM with peers := [aaPeer] }

/-- A connected peer whose metric has three all-bad intervals (score 0). -/
def worsePeer : Peer := { connPeer with trust_metric := some lowTM }

/-- Manager holding `worsePeer`'s session. -/
def worseM : Manager := { connM with peers := [worsePeer] }

/-- Manager for the same-IP claim: limit 1, one session already up from the
same host as the next one. -/
def sameIpM : Manager :=
  { config := { max_connections := 10, same_ip_conn_limit := 1, inbound_conn_limit := 5 }
    now := 900
    peers := [{ Peer.new 1 with connectedness := Connectedness.Connected, session_id := 1 },
      Peer.new 2]
    sessions := [{ sid := 1, pid := 1, ip := 5, outbound := true }] }

/-- Session context for the same-IP rejection. -/
def sameIpCtx : SessCtx :=
  { sid := 99, addr := { ip := 5, port := 9527, id_suffix := some 2 }, outbound := true }

/-- The single multiaddr of the retry-exhaustion peer. -/
def cfAddr : Multiaddr := { ip := 1, port := 2077, id_suffix := some 7 }

/-- The retry-exhaustion peer: one connectable multiaddr, fresh retry. -/
def cfPeer : Peer :=
  { Peer.new 7 with multiaddrs := { peer_id := 7, addrs := [(cfAddr, 0)] } }

/-- Manager holding `cfPeer` and one pending connecting attempt for it. -/
def cfM : Manager :=
  { peers := [cfPeer], connecting := [{ pid := 7, addrs_left := 1 }] }

/-- An already-given-up peer (retry ran out earlier), used to witness the
amended retry invariant. -/
def gaveUpPeer : Peer :=
  { Peer.new 9 with
    retry := { count := MAX_RETRY_COUNT + 1 }
    connectedness := Connectedness.Unconnectable }

/-- Manager holding only `gaveUpPeer`. -/
def gaveUpM : Manager := { peers := [gaveUpPeer] }

/-- A connected peer for the short-alive SessionClosed claim. -/
def scPeer : Peer :=
  { Peer.new 6 with
    connectedness := Connectedness.Connected
    session_id := 2
    connected_at := 100 }

/-- Manager holding `scPeer`'s session; the clock is 30 seconds after the
connection was made. -/
def scM : Manager :=
  { now := 130
    peers := [scPeer]
    sessions := [{ sid := 2, pid := 6, ip := 4, outbound := true }] }

/-- A peer with an expired ban and a non-trivial metric history, for the
unban claim. -/
def expiredBanPeer : Peer :=
  { Peer.new 8 with
    tags := { ban_until := some 50 }
    trust_metric := some { config := {}, good := 2, bad := 3, history := [(0, 10), (0, 10)] } }

/-! Helper lemmas about the registry representation. -/

/-- Replacing the found entry by itself leaves the registry unchanged. -/
theorem updateFirst_self (l : List Peer) (pid : PeerId) (f : Peer → Peer) (p : Peer)
    (hfind : l.find? (fun q => decide (q.id = pid)) = some p) (hf : f p = p) :
    updateFirst pid f l = l := by
  induction l with
  | nil => simp [updateFirst]
  | cons a l ih =>
    by_cases ha : a.id = pid
    · rw [List.find?_cons_of_pos _ (by simpa using ha)] at hfind
      obtain rfl : a = p := by simpa using hfind
      simp only [updateFirst, if_pos ha]
      rw [hf]
    · rw [List.find?_cons_of_neg _ (by simpa using ha)] at hfind
      simp only [updateFirst, if_neg ha]
      rw [ih hfind]

/-- Updating the found entry is visible through a subsequent lookup, as long
as the update preserves the id. -/
theorem find?_updateFirst (l : List Peer) (pid : PeerId) (f : Peer → Peer) (p : Peer)
    (hfind : l.find? (fun q => decide (q.id = pid)) = some p) (hid : (f p).id = p.id) :
    (updateFirst pid f l).find? (fun q => decide (q.id = pid)) = some (f p) := by
  induction l with
  | nil => simp [List.find?] at hfind
  | cons a l ih =>
    by_cases ha : a.id = pid
    · rw [List.find?_cons_of_pos _ (by simpa using ha)] at hfind
      obtain rfl : a = p := by simpa using hfind
      simp only [updateFirst, if_pos ha]
      exact List.find?_cons_of_pos _ (by simp [hid, ha])
    · rw [List.find?_cons_of_neg _ (by simpa using ha)] at hfind
      simp only [updateFirst, if_neg ha]
      rw [List.find?_cons_of_neg _ (by simpa using ha)]
      exact ih hfind

/-- Updating one id's entry does not affect lookups of another id, provided
the update preserves ids. -/
theorem find?_updateFirst_ne (l : List Peer) (pid pid' : PeerId) (f : Peer → Peer)
    (hne : pid ≠ pid') (hf : ∀ x, (f x).id = x.id) :
    (updateFirst pid' f l).find? (fun q => decide (q.id = pid)) =
      l.find? (fun q => decide (q.id = pid)) := by
  induction l with
  | nil => simp [updateFirst]
  | cons a l ih =>
    by_cases ha : a.id = pid'
    · have hnota : ¬(a.id = pid) := fun h => hne (h ▸ ha.symm ▸ rfl)
      have hnotp : ¬((f a).id = pid) := by
        rw [hf a]
        exact hnota
      simp only [updateFirst, if_pos ha]
      rw [List.find?_cons_of_neg _ (by simpa using hnotp),
        List.find?_cons_of_neg _ (by simpa using hnota)]
    · by_cases hp : a.id = pid
      · simp only [updateFirst, if_neg ha]
        rw [List.find?_cons_of_pos _ (by simpa using hp),
          List.find?_cons_of_pos _ (by simpa using hp)]
      · simp only [updateFirst, if_neg ha]
        rw [List.find?_cons_of_neg _ (by simpa using hp),
          List.find?_cons_of_neg _ (by simpa using hp)]
        exact ih

/-- A pointwise-preserved property is preserved by `updateFirst`. -/
theorem updateFirst_preserve (P : Peer → Prop) (pid : PeerId) (f : Peer → Peer)
    (hf : ∀ x, P x → P (f x)) (l : List Peer) (hl : ∀ x ∈ l, P x) :
    ∀ x ∈ updateFirst pid f l, P x := by
  induction l with
  | nil => simp [updateFirst]
  | cons a l ih =>
    intro x hx
    by_cases ha : a.id = pid
    · simp only [updateFirst, if_pos ha, List.mem_cons] at hx
      rcases hx with rfl | hx
      · exact hf a (hl a (List.mem_cons_self a l))
      · exact hl x (List.mem_cons_of_mem a hx)
    · simp only [updateFirst, if_neg ha, List.mem_cons] at hx
      rcases hx with rfl | hx
      · exact hl x (List.mem_cons_self x l)
      · exact ih (fun y hy => hl y (List.mem_cons_of_mem a hy)) x hx

/-- A peer with no ban tag passes `Peer::banned` unchanged. -/
theorem banned_of_no_ban (p : Peer) (now : Nat) (h : p.tags.ban_until = none) :
    p.banned now = (false, p) := by
  simp [Peer.banned, Tags.get_banned_until, h]

/-- Rewriting a no-op registry update away. -/
theorem update_peer_self (m : Manager) (pid : PeerId) (p : Peer)
    (hfind : m.peer? pid = some p) :
    m.update_peer pid (fun _ => p) = m := by
  simp only [Manager.update_peer]
  rw [updateFirst_self m.peers pid _ p hfind rfl]

/-- The bounded cover loop reaches a count whose backoff covers the
repeated-connection timeout, given enough fuel. -/
theorem coverLoop_ge (fuel : Nat) : ∀ c, MAX_RETRY_COUNT ≤ fuel + c →
    REPEATED_CONNECTION_TIMEOUT ≤ 2 ^ coverLoop fuel c := by
  induction fuel with
  | zero =>
    intro c hc
    simp only [Nat.zero_add] at hc
    simp only [coverLoop]
    calc REPEATED_CONNECTION_TIMEOUT ≤ 2 ^ MAX_RETRY_COUNT := by decide
    _ ≤ 2 ^ c := Nat.pow_le_pow_right (by decide) hc
  | succ fuel ih =>
    intro c hc
    simp only [coverLoop]
    by_cases h : REPEATED_CONNECTION_TIMEOUT ≤ 2 ^ c
    · simp [h]
    · simp only [h, if_false]
      exact ih (c + 1) (by omega)

/-- `coverCount` always covers the repeated-connection timeout. -/
theorem coverCount_ge (c : Nat) : REPEATED_CONNECTION_TIMEOUT ≤ 2 ^ coverCount c :=
  coverLoop_ge (MAX_RETRY_COUNT + 1) c (by omega)

/-- The cover loop never lowers the count. -/
theorem le_coverLoop (fuel : Nat) : ∀ c, c ≤ coverLoop fuel c := by
  induction fuel with
  | zero => intro c; simp [coverLoop]
  | succ fuel ih =>
    intro c
    simp only [coverLoop]
    by_cases h : REPEATED_CONNECTION_TIMEOUT ≤ 2 ^ c
    · simp [h]
    · simp only [h, if_false]
      exact Nat.le_trans (Nat.le_succ c) (ih (c + 1))

/-- `coverCount` never lowers the count. -/
theorem le_coverCount (c : Nat) : c ≤ coverCount c := le_coverLoop (MAX_RETRY_COUNT + 1) c

/-- `sc_peer` preserves the peer id. -/
theorem sc_peer_id (now rand : Nat) (cfg : TrustMetricConfig) (p : Peer) :
    (sc_peer now rand cfg p).id = p.id := by
  simp only [sc_peer, Peer.mark_disconnected, Peer.update_alive]
  split <;> rfl

/-- `punish_peer` preserves the peer id. -/
theorem punish_peer_id (now dur : Nat) (p : Peer) :
    (punish_peer now dur p).id = p.id := by
  simp only [punish_peer, Peer.mark_disconnected, Peer.update_alive]
  split <;> rfl

/-- `accept_peer` preserves the peer id. -/
theorem accept_peer_id (now : Nat) (cfg : TrustMetricConfig) (pk : PublicKey) (ctx : SessCtx)
    (p : Peer) : (accept_peer now cfg pk ctx p).id = p.id := by
  simp only [accept_peer, Peer.mark_connected]
  split <;> split <;> rfl

/-- `accept_peer` marks the peer connected on the new session. -/
theorem accept_peer_connectedness (now : Nat) (cfg : TrustMetricConfig) (pk : PublicKey)
    (ctx : SessCtx) (p : Peer) :
    (accept_peer now cfg pk ctx p).connectedness = Connectedness.Connected := by
  simp only [accept_peer, Peer.mark_connected]
  split <;> split <;> rfl

/-- `accept_peer` stores the new session id. -/
theorem accept_peer_session_id (now : Nat) (cfg : TrustMetricConfig) (pk : PublicKey)
    (ctx : SessCtx) (p : Peer) :
    (accept_peer now cfg pk ctx p).session_id = ctx.sid := by
  simp only [accept_peer, Peer.mark_connected]
  split <;> split <;> rfl

/-- `Peer::mark_disconnected` preserves the id. -/
theorem mark_disconnected_id (p : Peer) (now : Nat) :
    (p.mark_disconnected now).id = p.id := rfl

/-- Recording bad events does not change the interval count. -/
theorem bad_events_intervals (tm : TrustMetric) (n : Nat) :
    (tm.bad_events n).intervals = tm.intervals := rfl

/-- Recording bad events does not change the score (only elapsed intervals
feed the score). -/
theorem bad_events_score (tm : TrustMetric) (n : Nat) :
    (tm.bad_events n).trust_score = tm.trust_score := rfl

/-!
## Claims

Each claim of the frozen list is settled by exactly one theorem below.
-/

/-- C10: `Peer::set_pubkey(pk)` fails, leaving no key stored, when
`pk.peer_id()` differs from the peer's id; when they match it stores the
key, so `owned_pubkey()` returns it and every stored key satisfies
`pubkey.peer_id() = id`. -/
theorem set_pubkey_spec (p : Peer) (pk : PublicKey) :
    (pk.peer_id ≠ p.id →
      p.set_pubkey pk = Except.error (ErrorKind.PublicKeyNotMatchId pk p.id)) ∧
    (pk.peer_id = p.id →
      p.set_pubkey pk = Except.ok { p with pubkey := some pk } ∧
      ({ p with pubkey := some pk } : Peer).owned_pubkey = some pk) ∧
    (∀ q, p.set_pubkey pk = Except.ok q → ∀ k, q.pubkey = some k → k.peer_id = q.id) := by
  refine ⟨fun h => by simp [Peer.set_pubkey, h], fun h => ?_, fun q hq k hk => ?_⟩
  · exact ⟨by simp [Peer.set_pubkey, h], rfl⟩
  · by_cases h : pk.peer_id = p.id
    · simp only [Peer.set_pubkey, h, ne_eq, not_true_eq_false, if_false, Except.ok.injEq] at hq
      subst hq
      simp only at hk
      obtain rfl : pk = k := by simpa using hk
      simpa using h
    · simp [Peer.set_pubkey, h] at hq

/-- C10 witness: a mismatched key is refused on a concrete peer. -/
theorem set_pubkey_spec_witness :
    (Peer.new 3).set_pubkey { raw := 4 } =
      Except.error (ErrorKind.PublicKeyNotMatchId { raw := 4 } 3) :=
  (set_pubkey_spec (Peer.new 3) { raw := 4 }).1 (by decide)

/-- C9: `Peer::banned` is true exactly while `now` is before the ban-until
instant; once expired it returns false, removes the ban tag, and resets the
trust metric history (intervals and counters to zero) while preserving the
configuration. -/
theorem banned_spec (p : Peer) (now : Nat) :
    ((p.banned now).1 = true ↔ ∃ u, p.tags.get_banned_until = some u ∧ now < u) ∧
    (∀ u, p.tags.get_banned_until = some u → u ≤ now →
      (p.banned now).1 = false ∧
      (p.banned now).2.tags.ban_until = none ∧
      (∀ tm, p.trust_metric = some tm →
        ∃ tm', (p.banned now).2.trust_metric = some tm' ∧
          tm'.intervals = 0 ∧ tm'.good = 0 ∧ tm'.bad = 0 ∧ tm'.config = tm.config)) := by
  cases hb : p.tags.get_banned_until with
  | none =>
    refine ⟨?_, ?_⟩
    · simp [Peer.banned, hb]
    · intro u hu
      simp [hb] at hu
  | some u0 =>
    by_cases hlt : now < u0
    · refine ⟨?_, ?_⟩
      · simp only [Peer.banned, hb, if_pos hlt]
        exact ⟨fun _ => ⟨u0, rfl, hlt⟩, fun _ => trivial⟩
      · intro u hu hle
        obtain rfl : u0 = u := by simpa using hu
        omega
    · refine ⟨?_, ?_⟩
      · simp only [Peer.banned, hb, if_neg hlt]
        constructor
        · intro h
          exact absurd h (by simp)
        · rintro ⟨u, hu, hnow⟩
          obtain rfl : u0 = u := by simpa using hu
          exact absurd hnow hlt
      · intro u hu hle
        refine ⟨by simp [Peer.banned, hb, if_neg hlt], ?_, ?_⟩
        · simp [Peer.banned, hb, if_neg hlt, Tags.remove_ban]
        · intro tm htm
          refine ⟨tm.reset_history, ?_, rfl, rfl, rfl, rfl⟩
          simp [Peer.banned, hb, if_neg hlt, htm]

/-- C9 witness: on a concrete peer with an expired ban and a dirty metric,
`banned` returns false, drops the tag and resets the history. -/
theorem banned_spec_witness :
    (expiredBanPeer.banned 100).1 = false ∧
    (expiredBanPeer.banned 100).2.tags.ban_until = none ∧
    ∃ tm', (expiredBanPeer.banned 100).2.trust_metric = some tm' ∧
      tm'.intervals = 0 ∧ tm'.good = 0 ∧ tm'.bad = 0 ∧
      tm'.config = TrustMetricConfig.mk 60 200 := by
  have h := (banned_spec expiredBanPeer 100).2 50 (by decide) (by decide)
  exact ⟨h.1, h.2.1, h.2.2 _ rfl⟩

/-- C8: on SessionClosed for a connected peer whose session lived for less
than `SHORT_ALIVE_SESSION` seconds, the peer moves to `CanConnect` with
session id 0, and its retry count is raised so that the backoff `eta`
covers `REPEATED_CONNECTION_TIMEOUT`. -/
theorem session_closed_short_alive (m : Manager) (pid : PeerId) (sid rand : Nat) (p : Peer)
    (hfind : m.peer? pid = some p)
    (hshort : m.now - p.connected_at < SHORT_ALIVE_SESSION) :
    ∃ p', (m.session_closed pid sid rand).peer? pid = some p' ∧
      p'.connectedness = Connectedness.CanConnect ∧
      p'.session_id = 0 ∧
      p.retry.count ≤ p'.retry.count ∧
      REPEATED_CONNECTION_TIMEOUT ≤ p'.retry.eta 0 := by
  have hfind' : (m.remove_session sid).peer? pid = some p := hfind
  have hrw : (m.session_closed pid sid rand).peer? pid =
      some (sc_peer m.now rand m.config.peer_trust_config p) :=
    find?_updateFirst _ _ _ _ hfind' (sc_peer_id _ _ _ _)
  refine ⟨sc_peer m.now rand m.config.peer_trust_config p, hrw, ?_⟩
  simp only [sc_peer, Peer.mark_disconnected, Peer.update_alive]
  split
  · exact ⟨rfl, rfl, le_coverCount _,
      by simpa [Retry.eta] using coverCount_ge p.retry.count⟩
  · next h => exact absurd hshort h

/-- C8 witness: a concrete 30-second-old session is closed; the peer ends
up `CanConnect`, session id 0, with a covering backoff. -/
theorem session_closed_short_alive_witness :
    ∃ p', (scM.session_closed 6 2 0).peer? 6 = some p' ∧
      p'.connectedness = Connectedness.CanConnect ∧
      p'.session_id = 0 ∧
      scPeer.retry.count ≤ p'.retry.count ∧
      REPEATED_CONNECTION_TIMEOUT ≤ p'.retry.eta 0 :=
  session_closed_short_alive scM 6 2 0 scPeer (by decide) (by decide)

/-- `fb_update_peer` only touches the trust metric. -/
theorem fb_update_peer_id (cfg : TrustMetricConfig) (f : TrustMetric → TrustMetric) (p : Peer) :
    (fb_update_peer cfg f p).id = p.id := rfl

/-- `punish_peer` pauses the metric regardless of the disconnect branch. -/
theorem punish_peer_metric (now dur : Nat) (p : Peer) :
    (punish_peer now dur p).trust_metric = p.trust_metric.map TrustMetric.pause := by
  simp only [punish_peer, Peer.mark_disconnected, Peer.update_alive]
  split <;> rfl

/-- `punish_peer` inserts the ban regardless of the disconnect branch. -/
theorem punish_peer_tags (now dur : Nat) (p : Peer) :
    (punish_peer now dur p).tags = p.tags.insert_ban now dur := by
  simp only [punish_peer, Peer.mark_disconnected, Peer.update_alive]
  split <;> rfl

/-- C2: `Fatal` trust feedback on a connected peer that is not
`AlwaysAllow` commands `Disconnect` for the peer's session, bans it until
`now + peer_fatal_ban`, and pauses its trust metric. -/
theorem fatal_feedback_spec (m : Manager) (pid : PeerId) (p : Peer) (tm : TrustMetric)
    (s : String)
    (hfind : m.peer? pid = some p)
    (hAA : p.tags.always_allow = false)
    (hconn : p.connectedness = Connectedness.Connected)
    (htm : p.trust_metric = some tm) :
    (m.trust_feedback pid (TrustFeedback.Fatal s)).2 =
      [ConnectionEvent.Disconnect p.session_id] ∧
    ∃ p', (m.trust_feedback pid (TrustFeedback.Fatal s)).1.peer? pid = some p' ∧
      p'.tags.ban_until = some (m.now + m.config.peer_fatal_ban) ∧
      ∃ tm', p'.trust_metric = some tm' ∧ tm'.is_started = false := by
  have hred : m.trust_feedback pid (TrustFeedback.Fatal s) =
      ((m.update_peer pid (punish_peer m.now m.config.peer_fatal_ban)).remove_session
          p.session_id,
        [ConnectionEvent.Disconnect p.session_id]) := by
    simp only [Manager.trust_feedback, hfind, Manager.punish]
    rw [if_pos hAA, if_pos hconn]
  rw [hred]
  refine ⟨rfl, punish_peer m.now m.config.peer_fatal_ban p,
    find?_updateFirst _ _ _ _ hfind (punish_peer_id _ _ _), ?_, tm.pause, ?_, rfl⟩
  · rw [punish_peer_tags]
    simp [Tags.insert_ban, hAA]
  · rw [punish_peer_metric, htm]
    rfl

/-- C2 witness: the concrete connected peer is banned until `now + 50`,
disconnected, and its metric stops. -/
theorem fatal_feedback_spec_witness :
    (connM.trust_feedback 3 (TrustFeedback.Fatal "fatal")).2 =
      [ConnectionEvent.Disconnect 4] ∧
    ∃ p', (connM.trust_feedback 3 (TrustFeedback.Fatal "fatal")).1.peer? 3 = some p' ∧
      p'.tags.ban_until = some 750 ∧
      ∃ tm', p'.trust_metric = some tm' ∧ tm'.is_started = false :=
  fatal_feedback_spec connM 3 connPeer { TrustMetric.new {} with started := true } "fatal"
    (by decide) rfl rfl rfl

/-- C7: `Worse` trust feedback adds exactly ten bad events; with at least
three elapsed intervals, a score below 40, and no `AlwaysAllow` tag, the
connected peer is soft-banned until `now + peer_soft_ban`, disconnected,
and its metric paused; a metric with zero intervals triggers neither ban
nor disconnect. -/
theorem worse_feedback_spec (m : Manager) (pid : PeerId) (p : Peer) (tm : TrustMetric)
    (s : String)
    (hfind : m.peer? pid = some p)
    (htm : p.trust_metric = some tm) :
    (∃ p' tm', (m.trust_feedback pid (TrustFeedback.Worse s)).1.peer? pid = some p' ∧
      p'.trust_metric = some tm' ∧ tm'.bad = tm.bad + 10) ∧
    (WORSE_MIN_INTERVALS ≤ tm.intervals → tm.trust_score < KNOCK_OUT_SCORE →
      p.tags.always_allow = false → p.connectedness = Connectedness.Connected →
      (m.trust_feedback pid (TrustFeedback.Worse s)).2 =
        [ConnectionEvent.Disconnect p.session_id] ∧
      ∃ p', (m.trust_feedback pid (TrustFeedback.Worse s)).1.peer? pid = some p' ∧
        p'.tags.ban_until = some (m.now + m.config.peer_soft_ban) ∧
        ∃ tm', p'.trust_metric = some tm' ∧ tm'.is_started = false) ∧
    (tm.intervals = 0 →
      (m.trust_feedback pid (TrustFeedback.Worse s)).2 = [] ∧
      ∃ p', (m.trust_feedback pid (TrustFeedback.Worse s)).1.peer? pid = some p' ∧
        p'.tags.ban_until = p.tags.ban_until ∧
        p'.connectedness = p.connectedness) := by
  have hfb : ∀ cfg, fb_update_peer cfg (fun t => t.bad_events 10) p =
      { p with trust_metric := some (tm.bad_events 10) } := by
    intro cfg
    simp [fb_update_peer, htm]
  by_cases hc : WORSE_MIN_INTERVALS ≤ (tm.bad_events 10).intervals ∧
      (tm.bad_events 10).trust_score < KNOCK_OUT_SCORE ∧ p.tags.always_allow = false
  · -- knock-out branch
    have hconnCases := hc
    by_cases hconn : p.connectedness = Connectedness.Connected
    · have hred : m.trust_feedback pid (TrustFeedback.Worse s) =
          (((m.update_peer pid
              (fb_update_peer m.config.peer_trust_config (fun t => t.bad_events 10))).update_peer
                pid (punish_peer m.now m.config.peer_soft_ban)).remove_session p.session_id,
            [ConnectionEvent.Disconnect p.session_id]) := by
        simp only [Manager.trust_feedback, hfind, htm, Option.getD_some, Manager.punish]
        rw [if_pos hc, if_pos hconn]
        rfl
      have hpeer1 : (m.update_peer pid
          (fb_update_peer m.config.peer_trust_config (fun t => t.bad_events 10))).peer? pid =
          some { p with trust_metric := some (tm.bad_events 10) } := by
        rw [← hfb m.config.peer_trust_config]
        exact find?_updateFirst _ _ _ _ hfind (fb_update_peer_id _ _ _)
      have hpeer2 := find?_updateFirst _ _ _ _ hpeer1
        (punish_peer_id m.now m.config.peer_soft_ban _)
      refine ⟨?_, ?_, ?_⟩
      · refine ⟨punish_peer m.now m.config.peer_soft_ban
          { p with trust_metric := some (tm.bad_events 10) },
          (tm.bad_events 10).pause,
          by rw [hred]; exact hpeer2, ?_, rfl⟩
        rw [punish_peer_metric]
        rfl
      · intro _ _ hAA _
        refine ⟨by rw [hred], punish_peer m.now m.config.peer_soft_ban
          { p with trust_metric := some (tm.bad_events 10) },
          by rw [hred]; exact hpeer2, ?_, (tm.bad_events 10).pause, ?_, rfl⟩
        · rw [punish_peer_tags]
          simp [Tags.insert_ban, hAA]
        · rw [punish_peer_metric]
          rfl
      · intro h0
        have h1 := hc.1
        rw [bad_events_intervals, h0] at h1
        exact absurd h1 (by decide)
    · -- knocked out but not connected: no disconnect command is emitted
      have hred : m.trust_feedback pid (TrustFeedback.Worse s) =
          ((m.update_peer pid
              (fb_update_peer m.config.peer_trust_config (fun t => t.bad_events 10))).update_peer
                pid (punish_peer m.now m.config.peer_soft_ban), []) := by
        simp only [Manager.trust_feedback, hfind, htm, Option.getD_some, Manager.punish]
        rw [if_pos hc, if_neg hconn]
        rfl
      have hpeer1 : (m.update_peer pid
          (fb_update_peer m.config.peer_trust_config (fun t => t.bad_events 10))).peer? pid =
          some { p with trust_metric := some (tm.bad_events 10) } := by
        rw [← hfb m.config.peer_trust_config]
        exact find?_updateFirst _ _ _ _ hfind (fb_update_peer_id _ _ _)
      have hpeer2 := find?_updateFirst _ _ _ _ hpeer1
        (punish_peer_id m.now m.config.peer_soft_ban _)
      refine ⟨?_, ?_, ?_⟩
      · refine ⟨punish_peer m.now m.config.peer_soft_ban
          { p with trust_metric := some (tm.bad_events 10) },
          (tm.bad_events 10).pause,
          by rw [hred]; exact hpeer2, ?_, rfl⟩
        rw [punish_peer_metric]
        rfl
      · intro _ _ _ hconn'
        exact absurd hconn' hconn
      · intro h0
        have h1 := hc.1
        rw [bad_events_intervals, h0] at h1
        exact absurd h1 (by decide)
  · -- no knock-out: only the ten bad events are recorded
    have hred : m.trust_feedback pid (TrustFeedback.Worse s) =
        (m.update_peer pid
          (fb_update_peer m.config.peer_trust_config (fun t => t.bad_events 10)), []) := by
      simp only [Manager.trust_feedback, hfind, htm, Option.getD_some]
      rw [if_neg hc]
    have hpeer1 : (m.update_peer pid
        (fb_update_peer m.config.peer_trust_config (fun t => t.bad_events 10))).peer? pid =
        some { p with trust_metric := some (tm.bad_events 10) } := by
      rw [← hfb m.config.peer_trust_config]
      exact find?_updateFirst _ _ _ _ hfind (fb_update_peer_id _ _ _)
    refine ⟨?_, ?_, ?_⟩
    · exact ⟨{ p with trust_metric := some (tm.bad_events 10) }, tm.bad_events 10,
        by rw [hred]; exact hpeer1, rfl, rfl⟩
    · intro hi hs hAA _
      exact absurd ⟨by rwa [bad_events_intervals], by rwa [bad_events_score], hAA⟩ hc
    · intro _
      exact ⟨by rw [hred], { p with trust_metric := some (tm.bad_events 10) },
        by rw [hred]; exact hpeer1, rfl, rfl⟩

/-- C7 witness: on the concrete knocked-out peer, `Worse` adds ten bad
events, soft-bans until `now + 10`, disconnects session 4 and pauses the
metric. -/
theorem worse_feedback_spec_witness :
    (∃ p' tm', (worseM.trust_feedback 3 (TrustFeedback.Worse "worse")).1.peer? 3 = some p' ∧
      p'.trust_metric = some tm' ∧ tm'.bad = lowTM.bad + 10) ∧
    ((worseM.trust_feedback 3 (TrustFeedback.Worse "worse")).2 =
      [ConnectionEvent.Disconnect 4] ∧
    ∃ p', (worseM.trust_feedback 3 (TrustFeedback.Worse "worse")).1.peer? 3 = some p' ∧
      p'.tags.ban_until = some 710 ∧
      ∃ tm', p'.trust_metric = some tm' ∧ tm'.is_started = false) := by
  have h := worse_feedback_spec worseM 3 worsePeer lowTM "worse" (by decide) rfl
  exact ⟨h.1, h.2.1 (by decide) (by decide) rfl rfl⟩

/-- One trust-feedback event on an `AlwaysAllow` peer: no command is
emitted, no session removed, and the peer keeps its tags, its running
metric, its connectedness and its session id. -/
theorem fb_step_always_allow (m : Manager) (pid : PeerId) (p : Peer) (fb : TrustFeedback)
    (hfind : m.peer? pid = some p) (hAA : p.tags.always_allow = true)
    (hban : p.tags.ban_until = none)
    (tm : TrustMetric) (htm : p.trust_metric = some tm) (hst : tm.started = true) :
    (m.trust_feedback pid fb).2 = [] ∧
    (m.trust_feedback pid fb).1.sessions = m.sessions ∧
    ∃ p' tm', (m.trust_feedback pid fb).1.peer? pid = some p' ∧
      p'.tags.always_allow = true ∧ p'.tags.ban_until = none ∧
      p'.trust_metric = some tm' ∧ tm'.started = true ∧
      p'.connectedness = p.connectedness ∧ p'.session_id = p.session_id := by
  cases fb with
  | Good =>
    have hred : m.trust_feedback pid TrustFeedback.Good =
        (m.update_peer pid
          (fb_update_peer m.config.peer_trust_config (fun t => t.good_events 1)), []) := by
      simp only [Manager.trust_feedback, hfind]
    rw [hred]
    refine ⟨rfl, rfl,
      fb_update_peer m.config.peer_trust_config (fun t => t.good_events 1) p,
      tm.good_events 1,
      find?_updateFirst _ _ _ _ hfind (fb_update_peer_id _ _ _),
      hAA, hban, ?_, hst, rfl, rfl⟩
    simp [fb_update_peer, htm]
  | Neutral =>
    have hred : m.trust_feedback pid TrustFeedback.Neutral = (m, []) := by
      simp only [Manager.trust_feedback, hfind]
    rw [hred]
    exact ⟨rfl, rfl, p, tm, hfind, hAA, hban, htm, hst, rfl, rfl⟩
  | Bad s =>
    have hred : m.trust_feedback pid (TrustFeedback.Bad s) =
        (m.update_peer pid
          (fb_update_peer m.config.peer_trust_config (fun t => t.bad_events 1)), []) := by
      simp only [Manager.trust_feedback, hfind]
    rw [hred]
    refine ⟨rfl, rfl,
      fb_update_peer m.config.peer_trust_config (fun t => t.bad_events 1) p,
      tm.bad_events 1,
      find?_updateFirst _ _ _ _ hfind (fb_update_peer_id _ _ _),
      hAA, hban, ?_, hst, rfl, rfl⟩
    simp [fb_update_peer, htm]
  | Worse s =>
    have hred : m.trust_feedback pid (TrustFeedback.Worse s) =
        (m.update_peer pid
          (fb_update_peer m.config.peer_trust_config (fun t => t.bad_events 10)), []) := by
      simp only [Manager.trust_feedback, hfind, htm, Option.getD_some]
      rw [if_neg]
      rintro ⟨-, -, hfalse⟩
      rw [hAA] at hfalse
      cases hfalse
    rw [hred]
    refine ⟨rfl, rfl,
      fb_update_peer m.config.peer_trust_config (fun t => t.bad_events 10) p,
      tm.bad_events 10,
      find?_updateFirst _ _ _ _ hfind (fb_update_peer_id _ _ _),
      hAA, hban, ?_, hst, rfl, rfl⟩
    simp [fb_update_peer, htm]
  | Fatal s =>
    have hred : m.trust_feedback pid (TrustFeedback.Fatal s) = (m, []) := by
      simp only [Manager.trust_feedback, hfind]
      rw [if_neg]
      intro hfalse
      rw [hAA] at hfalse
      cases hfalse
    rw [hred]
    exact ⟨rfl, rfl, p, tm, hfind, hAA, hban, htm, hst, rfl, rfl⟩

/-- C3: a peer tagged `AlwaysAllow` is immune to trust feedback: over any
sequence of feedback events (Fatal and low-score Worse included) the
handler emits no command (so the peer is never disconnected by it), the
peer never acquires a ban tag, and its trust metric keeps running. -/
theorem always_allow_feedback_immunity (fbs : List TrustFeedback) :
    ∀ (m : Manager) (pid : PeerId) (p : Peer), m.peer? pid = some p →
    p.tags.always_allow = true → p.tags.ban_until = none →
    ∀ tm, p.trust_metric = some tm → tm.started = true →
    (m.run_feedbacks pid fbs).2 = [] ∧
    (m.run_feedbacks pid fbs).1.sessions = m.sessions ∧
    ∃ p' tm', (m.run_feedbacks pid fbs).1.peer? pid = some p' ∧
      p'.tags.always_allow = true ∧ p'.tags.ban_until = none ∧
      p'.trust_metric = some tm' ∧ tm'.started = true ∧
      p'.connectedness = p.connectedness ∧ p'.session_id = p.session_id := by
  induction fbs with
  | nil =>
    intro m pid p hfind hAA hban tm htm hst
    exact ⟨rfl, rfl, p, tm, hfind, hAA, hban, htm, hst, rfl, rfl⟩
  | cons fb rest ih =>
    intro m pid p hfind hAA hban tm htm hst
    obtain ⟨hout1, hsess1, p1, tm1, hfind1, hAA1, hban1, htm1, hst1, hconn1, hsid1⟩ :=
      fb_step_always_allow m pid p fb hfind hAA hban tm htm hst
    obtain ⟨hout2, hsess2, p2, tm2, hfind2, hAA2, hban2, htm2, hst2, hconn2, hsid2⟩ :=
      ih (m.trust_feedback pid fb).1 pid p1 hfind1 hAA1 hban1 tm1 htm1 hst1
    simp only [Manager.run_feedbacks]
    refine ⟨by rw [hout1, hout2]; rfl, by rw [hsess2, hsess1], p2, tm2, hfind2,
      hAA2, hban2, htm2, hst2, ?_, ?_⟩
    · rw [hconn2, hconn1]
    · rw [hsid2, hsid1]

/-- C3 witness: the concrete `AlwaysAllow` peer survives
`[Good, Worse, Fatal, Bad]` untouched: no command, no ban, metric
running. -/
theorem always_allow_feedback_immunity_witness :
    (aaM.run_feedbacks 3 [TrustFeedback.Good, TrustFeedback.Worse "w",
      TrustFeedback.Fatal "f", TrustFeedback.Bad "b"]).2 = [] ∧
    (aaM.run_feedbacks 3 [TrustFeedback.Good, TrustFeedback.Worse "w",
      TrustFeedback.Fatal "f", TrustFeedback.Bad "b"]).1.sessions = aaM.sessions ∧
    ∃ p' tm', (aaM.run_feedbacks 3 [TrustFeedback.Good, TrustFeedback.Worse "w",
      TrustFeedback.Fatal "f", TrustFeedback.Bad "b"]).1.peer? 3 = some p' ∧
      p'.tags.always_allow = true ∧ p'.tags.ban_until = none ∧
      p'.trust_metric = some tm' ∧ tm'.started = true ∧
      p'.connectedness = aaPeer.connectedness ∧ p'.session_id = aaPeer.session_id :=
  always_allow_feedback_immunity
    [TrustFeedback.Good, TrustFeedback.Worse "w", TrustFeedback.Fatal "f",
      TrustFeedback.Bad "b"]
    aaM 3 aaPeer (by decide) rfl rfl { TrustMetric.new {} with started := true } rfl rfl

/-- NewSession on a known, unbanned peer reduces to the decision chain that
follows the ban check. -/
theorem new_session_known_reduce (m : Manager) (pid : PeerId) (pk : PublicKey) (ctx : SessCtx)
    (p : Peer) (hfind : m.peer? pid = some p) (hban : p.tags.ban_until = none) :
    m.new_session pid pk ctx = m.new_session_core p pid pk ctx := by
  simp only [Manager.new_session, hfind]
  simp only [Manager.new_session_known, banned_of_no_ban p m.now hban]
  rw [update_peer_self m pid p hfind]
  simp

/-- C4: a NewSession whose address would exceed `same_ip_conn_limit` for a
peer that is not `AlwaysAllow` gets the peer banned until
`now + SAME_IP_LIMIT_BAN`, the new session disconnected, and leaves the
connected count and the peer's stored session id unchanged. -/
theorem same_ip_limit_spec (m : Manager) (pid : PeerId) (pk : PublicKey) (ctx : SessCtx)
    (p : Peer)
    (hfind : m.peer? pid = some p)
    (hban : p.tags.ban_until = none)
    (hAA : p.tags.always_allow = false)
    (hip : m.config.same_ip_conn_limit ≤ m.same_ip_count ctx.addr.ip) :
    (m.new_session pid pk ctx).2 = [ConnectionEvent.Disconnect ctx.sid] ∧
    ∃ p', (m.new_session pid pk ctx).1.peer? pid = some p' ∧
      p'.tags.ban_until = some (m.now + SAME_IP_LIMIT_BAN) ∧
      p'.session_id = p.session_id ∧
      (m.new_session pid pk ctx).1.connected = m.connected := by
  rw [new_session_known_reduce m pid pk ctx p hfind hban]
  have hred : m.new_session_core p pid pk ctx =
      ((m.update_peer pid (same_ip_ban_peer m.now)).remove_attempt pid,
        [ConnectionEvent.Disconnect ctx.sid]) := by
    simp only [Manager.new_session_core]
    rw [if_pos ⟨hip, hAA⟩]
  rw [hred]
  refine ⟨rfl, same_ip_ban_peer m.now p,
    find?_updateFirst _ _ _ _ hfind rfl, ?_, rfl, rfl⟩
  simp [same_ip_ban_peer, Tags.insert_ban, hAA]

/-- C4 witness: with `same_ip_conn_limit = 1` and one session already up
from the same host, the concrete newcomer is short-banned and its session
99 disconnected while the count stays 1. -/
theorem same_ip_limit_spec_witness :
    (sameIpM.new_session 2 { raw := 2 } sameIpCtx).2 = [ConnectionEvent.Disconnect 99] ∧
    ∃ p', (sameIpM.new_session 2 { raw := 2 } sameIpCtx).1.peer? 2 = some p' ∧
      p'.tags.ban_until = some (900 + SAME_IP_LIMIT_BAN) ∧
      p'.session_id = (Peer.new 2).session_id ∧
      (sameIpM.new_session 2 { raw := 2 } sameIpCtx).1.connected = sameIpM.connected :=
  same_ip_limit_spec sameIpM 2 { raw := 2 } sameIpCtx (Peer.new 2)
    (by decide) rfl rfl (by decide)

/-- C1: at `max_connections`, a NewSession for an Outbound peer with a
positive trust score replaces an eligible lower-score victim (its session
is disconnected and the newcomer admitted); with no eligible victim — in
particular when the newcomer has no trust score — the newcomer's own
session is disconnected and the connected count is unchanged. -/
theorem new_session_replacement_spec (m : Manager) (pid : PeerId) (pk : PublicKey)
    (ctx : SessCtx) (p : Peer)
    (hfind : m.peer? pid = some p)
    (hban : p.tags.ban_until = none)
    (hip : m.same_ip_count ctx.addr.ip < m.config.same_ip_conn_limit)
    (hout : ctx.outbound = true)
    (hmax : m.connected = m.config.max_connections) :
    (∀ tm, p.trust_metric = some tm → 0 < tm.trust_score →
      (∀ v, m.find_victim tm.trust_score = some v → v.id ≠ pid →
        (m.new_session pid pk ctx).2 = [ConnectionEvent.Disconnect v.session_id] ∧
        (∃ p', (m.new_session pid pk ctx).1.peer? pid = some p' ∧
          p'.connectedness = Connectedness.Connected ∧ p'.session_id = ctx.sid) ∧
        (m.new_session pid pk ctx).1.sessions =
          m.sessions.filter (fun s => decide (s.sid ≠ v.session_id)) ++
            [{ sid := ctx.sid, pid := pid, ip := ctx.addr.ip, outbound := ctx.outbound }]) ∧
      (m.find_victim tm.trust_score = none →
        (m.new_session pid pk ctx).2 = [ConnectionEvent.Disconnect ctx.sid] ∧
        (m.new_session pid pk ctx).1.connected = m.connected)) ∧
    (p.trust_metric = none →
      (m.new_session pid pk ctx).2 = [ConnectionEvent.Disconnect ctx.sid] ∧
      (m.new_session pid pk ctx).1.connected = m.connected) := by
  rw [new_session_known_reduce m pid pk ctx p hfind hban]
  have hnotip : ¬(m.config.same_ip_conn_limit ≤ m.same_ip_count ctx.addr.ip ∧
      p.tags.always_allow = false) := fun h => absurd h.1 (Nat.not_le.2 hip)
  have hnotin : ¬(ctx.outbound = false ∧ m.config.inbound_conn_limit ≤ m.inbound_count ∧
      p.tags.always_allow = false) := by
    rintro ⟨h0, -, -⟩
    rw [hout] at h0
    cases h0
  have hle : m.config.max_connections ≤ m.connected := le_of_eq hmax.symm
  refine ⟨?_, ?_⟩
  · intro tm htm hscore
    refine ⟨?_, ?_⟩
    · intro v hv hvne
      have hred : m.new_session_core p pid pk ctx =
          (((m.remove_session v.session_id).update_peer v.id
              (fun q => q.mark_disconnected m.now)).accept pid pk ctx,
            [ConnectionEvent.Disconnect v.session_id]) := by
        simp only [Manager.new_session_core]
        rw [if_neg hnotip, if_neg hnotin, if_pos hle, if_pos hout]
        simp only [htm]
        rw [if_pos hscore]
        simp only [hv]
      rw [hred]
      have hkeep : ((m.remove_session v.session_id).update_peer v.id
          (fun q => q.mark_disconnected m.now)).peer? pid = some p := by
        have h1 := find?_updateFirst_ne m.peers pid v.id
          (fun q => q.mark_disconnected m.now) (Ne.symm hvne) (fun _ => rfl)
        exact h1.trans hfind
      refine ⟨rfl, ?_, rfl⟩
      refine ⟨accept_peer m.now m.config.peer_trust_config pk ctx p, ?_,
        accept_peer_connectedness _ _ _ _ _, accept_peer_session_id _ _ _ _ _⟩
      exact find?_updateFirst _ _ _ _ hkeep (accept_peer_id _ _ _ _ _)
    · intro hv
      have hred : m.new_session_core p pid pk ctx =
          (m.remove_attempt pid, [ConnectionEvent.Disconnect ctx.sid]) := by
        simp only [Manager.new_session_core]
        rw [if_neg hnotip, if_neg hnotin, if_pos hle, if_pos hout]
        simp only [htm]
        rw [if_pos hscore]
        simp only [hv, Manager.reject]
      rw [hred]
      exact ⟨rfl, rfl⟩
  · intro htm
    have hred : m.new_session_core p pid pk ctx =
        (m.remove_attempt pid, [ConnectionEvent.Disconnect ctx.sid]) := by
      simp only [Manager.new_session_core]
      rw [if_neg hnotip, if_neg hnotin, if_pos hle, if_pos hout]
      simp only [htm, Manager.reject]
    rw [hred]
    exact ⟨rfl, rfl⟩

/-- C1 witness: with the registry full (max 1), the concrete 100-score
newcomer replaces the 0-score victim: session 1 is disconnected and
session 99 admitted; the no-metric newcomer is itself disconnected with
the count unchanged. -/
theorem new_session_replacement_spec_witness :
    ((replM.new_session 2 { raw := 2 } replCtx).2 = [ConnectionEvent.Disconnect 1] ∧
      (∃ p', (replM.new_session 2 { raw := 2 } replCtx).1.peer? 2 = some p' ∧
        p'.connectedness = Connectedness.Connected ∧ p'.session_id = 99) ∧
      (replM.new_session 2 { raw := 2 } replCtx).1.sessions =
        replM.sessions.filter (fun s => decide (s.sid ≠ 1)) ++
          [{ sid := 99, pid := 2, ip := 3, outbound := true }]) ∧
    ((replNoScoreM.new_session 2 { raw := 2 } replCtx).2 =
        [ConnectionEvent.Disconnect 99] ∧
      (replNoScoreM.new_session 2 { raw := 2 } replCtx).1.connected =
        replNoScoreM.connected) := by
  constructor
  · have h := (new_session_replacement_spec replM 2 { raw := 2 } replCtx newcomerPeer
      (by decide) rfl (by decide) rfl (by decide)).1 highTM rfl (by decide)
    have h2 := h.1 victimPeer (by decide) (by decide)
    exact h2
  · exact (new_session_replacement_spec replNoScoreM 2 { raw := 2 } replCtx
      { Peer.new 2 with trust_metric := none }
      (by decide) rfl (by decide) rfl (by decide)).2 rfl

/-- C5 counterexample: the claim's first direction fails.  One
`ConnectFailed{ProtocolHandle}` on a fresh peer (retry count 0, within
`MAX_RETRY_COUNT`) leaves it `Unconnectable`: the code gives peers up on
permanent errors without touching the retry counter. -/
theorem retry_invariant_counterexample :
    ¬(∀ q, (cfM.connect_failed cfAddr ConnectionErrorKind.ProtocolHandle).peer? 7 = some q →
        q.retry.count ≤ MAX_RETRY_COUNT →
        q.connectedness ≠ Connectedness.Unconnectable) := by
  intro h
  exact h (cf_mark_peer cfAddr ConnectionErrorKind.ProtocolHandle cfPeer)
    (by decide) (by decide) (by decide)

/-- C5 (amended): after a ConnectFailed event, a retry count above
`MAX_RETRY_COUNT` still implies `Unconnectable`; the converse direction of
the claim is dropped, since permanent errors mark a peer `Unconnectable`
while its retry count stays within the bound. -/
theorem retry_give_up_invariant_connect_failed (m : Manager) (addr : Multiaddr)
    (kind : ConnectionErrorKind)
    (hinv : ∀ p ∈ m.peers, MAX_RETRY_COUNT < p.retry.count →
      p.connectedness = Connectedness.Unconnectable) :
    ∀ p ∈ (m.connect_failed addr kind).peers, MAX_RETRY_COUNT < p.retry.count →
      p.connectedness = Connectedness.Unconnectable := by
  have hmark : ∀ x, (MAX_RETRY_COUNT < x.retry.count →
      x.connectedness = Connectedness.Unconnectable) →
      (MAX_RETRY_COUNT < (cf_mark_peer addr kind x).retry.count →
        (cf_mark_peer addr kind x).connectedness = Connectedness.Unconnectable) := by
    intro x hx
    cases kind <;> simp only [cf_mark_peer] <;> intro h <;>
      first | trivial | exact hx h
  have hexh : ∀ x, MAX_RETRY_COUNT < (cf_exhaust_peer x).retry.count →
      (cf_exhaust_peer x).connectedness = Connectedness.Unconnectable := by
    intro x
    by_cases h : MAX_RETRY_COUNT < x.retry.count + 1
    · simp [cf_exhaust_peer, Retry.inc, h]
    · simp [cf_exhaust_peer, Retry.inc, h]
  cases haddr : addr.id_suffix with
  | none =>
    simp only [Manager.connect_failed, haddr]
    exact hinv
  | some pid =>
    cases hp : m.peer? pid with
    | none =>
      simp only [Manager.connect_failed, haddr, hp]
      exact hinv
    | some p0 =>
      simp only [Manager.connect_failed, haddr, hp]
      have hm1 : ∀ p ∈ (m.update_peer pid (cf_mark_peer addr kind)).peers,
          MAX_RETRY_COUNT < p.retry.count →
          p.connectedness = Connectedness.Unconnectable :=
        updateFirst_preserve _ pid _ hmark m.peers hinv
      cases hatt : (m.update_peer pid (cf_mark_peer addr kind)).attempt? pid with
      | none => exact hm1
      | some a =>
        by_cases h1 : (((m.update_peer pid (cf_mark_peer addr kind)).peer? pid).getD
            (Peer.new pid)).connectedness = Connectedness.Unconnectable
        · simp only [if_pos h1]
          exact hm1
        · by_cases h2 : a.addrs_left - 1 = 0 ∨
              (((m.update_peer pid (cf_mark_peer addr kind)).peer? pid).getD
                (Peer.new pid)).multiaddrs.connectable_len = 0
          · simp only [if_neg h1, if_pos h2]
            exact updateFirst_preserve _ pid _ (fun x _ => hexh x) _ hm1
          · simp only [if_neg h1, if_neg h2]
            exact hm1

/-- C5 witness: on a manager whose only peer already ran out of retries
(count 7, `Unconnectable`), the amended invariant carries over a
ConnectFailed event. -/
theorem retry_give_up_invariant_witness :
    (cf_mark_peer { ip := 0, port := 0, id_suffix := some 9 }
        ConnectionErrorKind.IoError gaveUpPeer).connectedness =
      Connectedness.Unconnectable :=
  retry_give_up_invariant_connect_failed gaveUpM
    { ip := 0, port := 0, id_suffix := some 9 } ConnectionErrorKind.IoError
    (by decide) _ (by decide) (by decide)

/-- C6 counterexample: feeding six `ConnectFailed{Io}` events for the
single address of peer B (with one pending connecting attempt) does not
leave `retry.count = 7` and `Unconnectable`: only the first event finds
the attempt and increments the retry counter. -/
theorem retry_exhaustion_counterexample :
    ¬(((iterate_cf cfM cfAddr 6).peer? 7).map
        (fun p => (p.retry.count, p.connectedness)) =
      some (MAX_RETRY_COUNT + 1, Connectedness.Unconnectable)) := by
  decide

/-- C6 (amended): after six `ConnectFailed{Io}` events for B's only
address, that address's failure count reaches `MAX_RETRY_COUNT` (so no
connectable multiaddr remains), no ConnectingAttempt remains, and
`retry.count = 1` with connectedness `CanConnect`: the retry counter is
bumped exactly once, when the single pending attempt exhausts. -/
theorem retry_exhaustion_amended :
    ((iterate_cf cfM cfAddr 6).peer? 7).map
      (fun p => (p.retry.count, p.connectedness, p.multiaddrs.failure cfAddr,
        p.multiaddrs.connectable_len)) =
      some (1, Connectedness.CanConnect, some MAX_RETRY_COUNT, 0) ∧
    (iterate_cf cfM cfAddr 6).connecting = [] := by
  decide

end PM
